import Mathlib

/-!
Verification of the Extract language core (scanner, parser, evaluator,
environment, pattern matcher) against its natural-language specification.

The Go source is shallowly embedded:
* `int64` values become `Int` with explicit two's-complement wrapping
  (`wrap64`) wherever the source performs 64-bit arithmetic.
* `float64` values are modelled as exact rationals (`Rat`).  Every concrete
  input used in a theorem below stays in the range where IEEE-754 double
  arithmetic is exact, so the abstraction is faithful at those points.
* Go interface values (`any`) become the tagged sum `Extract.Value`.
* The shared module registry (a pointer held by every `Env`) is threaded
  explicitly as a `Registry` state through evaluation.
* Go's unbounded recursion is modelled with a fuel parameter; `none`
  (or a dedicated fuel error) signals exhausted fuel and also stands for
  the two fatal panics of the evaluator (self-bound identifier, sentinel
  lookup with no current module), which no claim exercises.
-/

namespace Extract

/-- Two's-complement wrapping of an integer to 64 bits, modelling Go `int64`
arithmetic (`total += arg` in `kernelAdd`, subtraction in `kernelSub`). -/
def wrap64 (n : Int) : Int := (n + 2 ^ 63) % 2 ^ 64 - 2 ^ 63

/-- The host-callback built-ins (`EvalFunc` values) that the runtime
pre-binds: the kernel forms of `kernel.go`/the kernel variant cited by the
spec, plus the standard library's `String.to_upper`. -/
inductive Builtin where
  | defmodule
  | defForm
  | funcForm
  | listForm
  | add
  | sub
  | toUpper
  deriving DecidableEq, Repr

mutual

/-- The runtime value universe (`any` in the Go source).  Constructors map
one-to-one onto the dynamic types the evaluator distinguishes:
`nil`/`int64`/`float64`/`string`/`Atom`/`Ident`/`*List`/`Call`/`Ref`/
`Pinned`/`EvalFunc` built-ins/`*Func`/the two closure shapes produced by
`createFunc`/error values.  A `*List` is abstracted as a Lean `List Value`
(the source maintains the invariant that the cached length equals the node
count; the cached-length structure itself is modelled separately as
`GoList` for the claims about it). -/
inductive Value where
  | nil
  | int (n : Int)
  | float (q : Rat)
  | str (s : String)
  | atom (s : String)
  | ident (s : String)
  | list (l : List Value)
  | call (l : List Value)
  | ref (inside : Value) (name : String)
  | pinned (name : String)
  | efunc (b : Builtin)
  | func (f : Func)
  | closure0 (body : List Value)
  | closureN (name : String) (params : List String) (defEnv : Env) (body : List Value)
  | err (e : Err)

/-- The error values of the runtime (`ArgumentNumError`, `TypeError`,
`NameError`, `UndefinedModuleError`, `ErrPatternMatch`, and the ad-hoc
`errors.New`/`fmt.Errorf` errors).  `typeError` records the offending value
and the names of the expected Go types. -/
inductive Err where
  | argumentNum (num expected : Int)
  | typeError (val : Value) (expected : List String)
  | nameError (name : String)
  | undefinedModule (name : String)
  | patternMatch
  | msg (s : String)

/-- A user function (`Func` in `func.go`): a name, the enclosing
environment captured at definition, and the ordered list of variants.
The Go constructor `NewFunc` stores `env.Let(name, &f)` in the function,
creating a pointer cycle; the pure model stores the pre-binding
environment and re-creates the self-binding on use (`Func.selfEnv`),
which is observationally identical. -/
inductive Func where
  | mk (name : String) (envB : Env) (variants : List Variant)

/-- One (compiled pattern, body) pair of a user function. -/
inductive Variant where
  | mk (pat : Matcher) (body : List Value)

/-- A compiled matcher tree (the closures produced by `compilePattern` in
`func.go`): equality matchers for the four literal types, the bind
matcher, the pin matcher (holding the value captured at compile time),
and the list-structure matcher. -/
inductive Matcher where
  | equalityAtom (s : String)
  | equalityInt (n : Int)
  | equalityFloat (q : Rat)
  | equalityStr (s : String)
  | assign (name : String)
  | pin (v : Value)
  | listM (ms : List Matcher)

/-- The lexical environment (`Env` in `env.go`) minus the shared module
registry, which is threaded separately (`Registry`): an optional current
module (identified by its registry name) and the locals chain
(`localList`), a cons list of (identifier, value) bindings.  The
distinguished binding name `$module` (`moduleIdent`) is the sentinel that
makes lookup consult the current module's declarations. -/
inductive Env where
  | mk (currentModule : Option String) (locals : List (String × Value))

end

/-- Declarations of one module (`Module.decls`). -/
abbrev Decls := List (String × Value)

/-- The shared module registry (`Env.modules`), an association list from
module name to its declarations. -/
abbrev Registry := List (String × Decls)

/-- Projection: the current module marker of an `Env`. -/
def Env.currentModule : Env → Option String
  | .mk cm _ => cm

/-- Projection: the locals chain of an `Env`. -/
def Env.locals : Env → List (String × Value)
  | .mk _ ls => ls

/-- Models `Env.Let` from `env.go`: returns a new `Env` whose locals chain has one
additional node; the receiver is passed by value and never mutated. -/
def Env.Let (env : Env) (name : String) (v : Value) : Env :=
  .mk env.currentModule ((name, v) :: env.locals)

/-- Association-list search over a module's declarations
(`Module.Lookup`). -/
def declsFind (decls : Decls) (k : String) : Option Value :=
  match decls with
  | [] => none
  | (id, v) :: rest => if id = k then some v else declsFind rest k

/-- Models `Env.GetModule`: find a module's declarations in the registry. -/
def getModule (reg : Registry) (name : String) : Option Decls :=
  match reg with
  | [] => none
  | (id, d) :: rest => if id = name then some d else getModule rest name

/-- The scan of `Env.Lookup` via `Env.All`: walk the locals chain; a node
whose name is the sentinel `$module` yields the current module's
declarations instead of itself (and the scan then continues).  The outer
`Option` models the Go panic: hitting the sentinel with no current module
dereferences a nil `*Module` in `env.All`.  The current module is resolved
through the registry (in Go it is a pointer to the registry's entry). -/
def lookupLoop (reg : Registry) (cm : Option String) (k : String) :
    List (String × Value) → Option (Option Value)
  | [] => some none
  | (id, v) :: rest =>
    if id = "$module" then
      match cm with
      | none => none
      | some m =>
        match declsFind ((getModule reg m).getD []) k with
        | some w => some (some w)
        | none => lookupLoop reg cm k rest
    else if id = k then some (some v)
    else lookupLoop reg cm k rest

/-- Models `Env.Lookup` from `env.go`: scan the locals chain (with
module-declaration interpolation at the sentinel); `some none` is Go's
`(nil, false)`, `some (some v)` is `(v, true)`, and `none` is the fatal
nil-module panic. -/
def Env.Lookup (reg : Registry) (env : Env) (k : String) : Option (Option Value) :=
  lookupLoop reg env.currentModule k env.locals

/-- Models `Equal` from `extract.go`, as the pin matcher uses it.  No type in the
source implements `Equaler`, so `Equal` is `==` on comparable dynamic
types.  Scalar values compare componentwise; for the remaining kinds Go
compares pointer identity (or faults on nil), which a pure model cannot
observe — those cases are rendered `false` and are not exercised by any
claim. -/
def goEqual : Value → Value → Bool
  | .int a, .int b => decide (a = b)
  | .float a, .float b => decide (a = b)
  | .str a, .str b => decide (a = b)
  | .atom a, .atom b => decide (a = b)
  | .ident a, .ident b => decide (a = b)
  | .efunc a, .efunc b => decide (a = b)
  | _, _ => false

mutual

/-- Models `Pattern.Match`, i.e. running one compiled matcher closure from
`func.go` on a value.  Total by construction: matchers return an
environment and a `Bool`, never an error. -/
def matchM : Matcher → Env → Value → Env × Bool
  | .equalityAtom s, env, v =>
    (env, match v with | .atom t => decide (s = t) | _ => false)
  | .equalityInt n, env, v =>
    (env, match v with | .int m => decide (n = m) | _ => false)
  | .equalityFloat q, env, v =>
    (env, match v with | .float r => decide (q = r) | _ => false)
  | .equalityStr s, env, v =>
    (env, match v with | .str t => decide (s = t) | _ => false)
  | .assign name, env, v => (env.Let name v, true)
  | .pin w, env, v => (env, goEqual w v)
  | .listM ms, env, v =>
    match v with
    | .list l => if l.length = ms.length then matchList ms l env else (env, false)
    | _ => (env, false)

/-- The positional loop of `listMatcher`: children matched in order,
threading the environment, stopping at the first failure. -/
def matchList : List Matcher → List Value → Env → Env × Bool
  | [], [], env => (env, true)
  | m :: ms, x :: xs, env =>
    let r := matchM m env x
    if r.2 then matchList ms xs r.1 else (r.1, false)
  | _, _, env => (env, false)

end

/-- The self-binding environment of a user function: `NewFunc` stores
`env.Let(name, &f)` as the function's captured environment.  Variant
patterns are matched against this environment at call time. -/
def Func.selfEnv (f : Func) : Env :=
  match f with
  | .mk name envB _ => envB.Let name (.func f)

/-- Projection: the variants of a `Func`. -/
def Func.variants : Func → List Variant
  | .mk _ _ vs => vs

/-- Projection: a variant's compiled pattern. -/
def Variant.pat : Variant → Matcher
  | .mk p _ => p

/-- Projection: a variant's body. -/
def Variant.body : Variant → List Value
  | .mk _ b => b

/-- The parameter-collection loop of `createFunc`: every element of the
pattern tail must be an `Ident`. -/
def collectParams : List Value → Except Err (List String)
  | [] => .ok []
  | a :: rest =>
    match a with
    | .ident s =>
      match collectParams rest with
      | .error e => .error e
      | .ok ps => .ok (s :: ps)
    | _ => .error (.typeError a ["Ident"])

/-- Models `createFunc` from the kernel: turn a `def`/`func` head pattern and a
body into a (name, function value) pair.  An `Ident` head yields the
zero-argument closure; a `Call` head yields the parameter closure, which
captures the defining environment, its own name (for the recursion
self-binding) and the parameter list.  Error cases follow the source; the
`TypeError` values that Go builds from zero-valued locals are rendered
with the corresponding zero literal. -/
def createFunc (env : Env) (pattern : Value) (body : List Value) :
    Except Err (String × Value) :=
  match pattern with
  | .ident s => .ok (s, .closure0 body)
  | .call l =>
    match l with
    | [] => .error (.msg "function pattern list must contain at least one element")
    | h :: tl =>
      match h with
      | .ident name =>
        match collectParams tl with
        | .error e => .error e
        | .ok params => .ok (name, .closureN name params env body)
      | _ => .error (.typeError (.ident "") ["Ident"])
  | _ => .error (.typeError pattern ["*List", "Ident"])

/-- The parameter-binding loop of the `createFunc` closure: `fenv =
fenv.Let(params[i], arg)` in order. -/
def pushParams (env : Env) : List String → List Value → Env
  | p :: ps, a :: rest => pushParams (env.Let p a) ps rest
  | _, _ => env

/-- Add a declaration to a module of the registry
(`m.decls.LoadOrStore(name, f)` on the success path; in Go the module is
shared by pointer, here the registry entry is updated in place). -/
def storeDecl : Registry → String → String → Value → Registry
  | [], _, _, _ => []
  | (id, d) :: rest, m, k, v =>
    if id = m then (id, d ++ [(k, v)]) :: rest else (id, d) :: storeDecl rest m k v

mutual

/-- Models `Eval` from `extract.go` plus the `Eval` methods of every `Evaluator`
(`Pinned`, `Call`, `Ident`, `Ref`, `EvalFunc`, `*Func`, and the two
closures built by `createFunc`).  Values that are not evaluators —
`nil`, ints, floats, strings, atoms, data lists and error values — fall
to the default branch: prepended to non-empty args as a data list, or
returned unchanged.  The fuel argument models Go's unbounded recursion;
`none` means fuel ran out or a fatal panic path was reached
(self-bound identifier; sentinel lookup with nil module). -/
def eval : Nat → Registry → Env → Value → List Value → Option (Registry × Env × Value)
  | 0, _, _, _, _ => none
  | fuel + 1, reg, env, expr, args =>
    match expr with
    | .pinned name =>
      some (reg, env, .err (.msg ("pinned ident \"" ++ name ++ "\" used as expression")))
    | .call l =>
      match l with
      | [] => some (reg, env, .call [])
      | h :: tl =>
        match eval fuel reg env h tl with
        | none => none
        | some (reg1, env1, r) =>
          if args.length = 0 then some (reg1, env1, r)
          else eval fuel reg1 env1 r args
    | .ident s =>
      match Env.Lookup reg env s with
      | none => none
      | some none => some (reg, env, .err (.nameError s))
      | some (some c) =>
        match c with
        | .ident t => if t = s then none else eval fuel reg env (.ident t) args
        | _ => eval fuel reg env c args
    | .ref inside name =>
      match eval fuel reg env inside [] with
      | none => none
      | some (reg1, env1, inv) =>
        match inv with
        | .atom a =>
          match getModule reg1 a with
          | none => some (reg1, env1, .err (.undefinedModule a))
          | some decls =>
            match declsFind decls name with
            | none => some (reg1, env1, .err (.nameError name))
            | some v => eval fuel reg1 env1 v args
        | .err e => some (reg1, env1, .err e)
        | other => some (reg1, env1, .err (.typeError other ["Atom"]))
    | .efunc b =>
      match b with
      | .defmodule => kernelDefModule fuel reg env args
      | .defForm => kernelDef fuel reg env args
      | .funcForm => kernelFunc fuel reg env args
      | .listForm => kernelList fuel reg env args
      | .add => kernelAdd fuel reg env args
      | .sub => kernelSub fuel reg env args
      | .toUpper => kernelToUpper fuel reg env args
    | .func f => funcEval fuel reg env f args
    | .closure0 body =>
      if args.length ≠ 0 then some (reg, env, .err (.argumentNum args.length 0))
      else
        match run fuel reg env .nil body with
        | none => none
        | some (reg1, _, ret) => some (reg1, env, ret)
    | .closureN name params defEnv body =>
      if args.length ≠ params.length then
        some (reg, env, .err (.argumentNum args.length params.length))
      else
        match evalVals fuel reg defEnv args with
        | none => none
        | some (reg1, _, evargs) =>
          let fenv := (pushParams env params evargs).Let name
            (.closureN name params defEnv body)
          match run fuel reg1 fenv .nil body with
          | none => none
          | some (reg2, _, ret) => some (reg2, fenv, ret)
    | other =>
      if args.length > 0 then some (reg, env, .list (other :: args))
      else some (reg, env, other)

/-- Models `CollectList(EvalAll(env, seq))`: evaluate each element in order with
no arguments, threading the environment (and registry) forward, and
collect every result.  No error short-circuit — the consumer inspects
the values. -/
def evalVals : Nat → Registry → Env → List Value → Option (Registry × Env × List Value)
  | 0, _, _, _ => none
  | fuel + 1, reg, env, es =>
    match es with
    | [] => some (reg, env, [])
    | e :: rest =>
      match eval fuel reg env e [] with
      | none => none
      | some (reg1, env1, v) =>
        match evalVals fuel reg1 env1 rest with
        | none => none
        | some (reg2, env2, vs) => some (reg2, env2, v :: vs)

/-- Models `Run` from `extract.go`: evaluate each expression in order, threading
the environment forward; return early with the first result that is an
error value; otherwise return the result of the last expression.  The
accumulator `ret` is Go's `ret` local (initially `nil`). -/
def run : Nat → Registry → Env → Value → List Value → Option (Registry × Env × Value)
  | 0, _, _, _, _ => none
  | fuel + 1, reg, env, ret, es =>
    match es with
    | [] => some (reg, env, ret)
    | e :: rest =>
      match eval fuel reg env e [] with
      | none => none
      | some (reg1, env1, r) =>
        match r with
        | .err er => some (reg1, env1, .err er)
        | _ => run fuel reg1 env1 r rest

/-- Models `Func.Eval` from `func.go`: evaluate the argument expressions in the
caller's environment, then try the variants in definition order. -/
def funcEval : Nat → Registry → Env → Func → List Value → Option (Registry × Env × Value)
  | 0, _, _, _, _ => none
  | fuel + 1, reg, env, f, args =>
    match evalVals fuel reg env args with
    | none => none
    | some (reg1, _, eargs) =>
      tryVariants fuel reg1 env f.selfEnv f.variants (.list eargs)

/-- The variant loop of `Func.Eval`: match each variant's pattern against
the evaluated arguments in the function's captured (self-binding)
environment; on the first success run the body in the extended
environment and return the result with the caller's environment; if no
variant matches, return `ErrPatternMatch`. -/
def tryVariants : Nat → Registry → Env → Env → List Variant → Value →
    Option (Registry × Env × Value)
  | 0, _, _, _, _, _ => none
  | fuel + 1, reg, callerEnv, fEnv, vars, eargs =>
    match vars with
    | [] => some (reg, callerEnv, .err .patternMatch)
    | v :: rest =>
      let m := matchM v.pat fEnv eargs
      if m.2 then
        match run fuel reg m.1 .nil v.body with
        | none => none
        | some (reg1, _, r) => some (reg1, callerEnv, r)
      else tryVariants fuel reg callerEnv fEnv rest eargs

/-- Models `kernelDefModule`: first argument must be an Atom naming the module;
register a fresh module (error if it already exists), run the body with
the current module set (the registry mutation survives because the Go
registry is shared by pointer), and return the module atom or the body's
error.  The `TypeError` branch follows Go in building its payload from
the zero-valued `name` local. -/
def kernelDefModule : Nat → Registry → Env → List Value → Option (Registry × Env × Value)
  | 0, _, _, _ => none
  | fuel + 1, reg, env, args =>
    match args with
    | [] => some (reg, env, .err (.argumentNum 0 (-1)))
    | h :: body =>
      match h with
      | .atom name =>
        match getModule reg name with
        | some _ =>
          some (reg, env, .err (.msg ("attempted to redeclare module \"" ++ name ++ "\"")))
        | none =>
          let reg1 := (name, []) :: reg
          let mr := Env.mk (some name) env.locals
          match run fuel reg1 mr .nil body with
          | none => none
          | some (reg2, _, bodyv) =>
            match bodyv with
            | .err er => some (reg2, env, .err er)
            | _ => some (reg2, env, .atom name)
      | _ => some (reg, env, .err (.typeError (.atom "") ["Atom"]))

/-- Models `kernelDef`: requires a current module; builds the function via
`createFunc` and stores it in the module's declarations unless the name
is already declared. -/
def kernelDef : Nat → Registry → Env → List Value → Option (Registry × Env × Value)
  | 0, _, _, _ => none
  | _ + 1, reg, env, args =>
    if args.length < 2 then some (reg, env, .err (.argumentNum args.length (-1)))
    else
      match env.currentModule with
      | none => some (reg, env, .err (.msg "def used outside of module"))
      | some mname =>
        match args with
        | h :: body =>
          match createFunc env h body with
          | .error e => some (reg, env, .err e)
          | .ok (name, f) =>
            match declsFind ((getModule reg mname).getD []) name with
            | some _ =>
              some (reg, env, .err (.msg ("attempted to redeclare function \"" ++ name ++ "\"")))
            | none => some (storeDecl reg mname name f, env, f)
        | [] => none

/-- Models `kernelFunc`: like `kernelDef` but returns the function value without
registering it. -/
def kernelFunc : Nat → Registry → Env → List Value → Option (Registry × Env × Value)
  | 0, _, _, _ => none
  | _ + 1, reg, env, args =>
    if args.length < 2 then some (reg, env, .err (.argumentNum args.length (-1)))
    else
      match args with
      | h :: body =>
        match createFunc env h body with
        | .error e => some (reg, env, .err e)
        | .ok (_, f) => some (reg, env, f)
      | [] => none

/-- Models `kernelList`: evaluate every argument and return the list of results
(at least one argument required). -/
def kernelList : Nat → Registry → Env → List Value → Option (Registry × Env × Value)
  | 0, _, _, _ => none
  | fuel + 1, reg, env, args =>
    match args with
    | [] => some (reg, env, .err (.argumentNum 0 (-1)))
    | _ =>
      match evalVals fuel reg env args with
      | none => none
      | some (reg1, _, vs) => some (reg1, env, .list vs)

/-- Models `kernelAdd`: at least two arguments; delegate to the accumulation
loop and return the caller's environment unchanged. -/
def kernelAdd : Nat → Registry → Env → List Value → Option (Registry × Env × Value)
  | 0, _, _, _ => none
  | fuel + 1, reg, env, args =>
    if args.length < 2 then some (reg, env, .err (.argumentNum args.length (-1)))
    else
      match addLoop fuel reg env args 0 0 with
      | none => none
      | some (reg1, v) => some (reg1, env, v)

/-- The evaluation loop of `kernelAdd` over `EvalAll`: keep separate
`int64` and `float64` running totals (the former wrapping at 64 bits);
an error child or a non-numeric child returns immediately, leaving later
arguments unevaluated.  At the end the result is
`float64(total) + totalf` when `totalf != 0` and the integer total
otherwise — so a float contribution of exactly zero yields an integer. -/
def addLoop : Nat → Registry → Env → List Value → Int → Rat → Option (Registry × Value)
  | 0, _, _, _, _, _ => none
  | fuel + 1, reg, ienv, es, total, totalf =>
    match es with
    | [] => some (reg, if totalf ≠ 0 then .float ((total : Rat) + totalf) else .int total)
    | e :: rest =>
      match eval fuel reg ienv e [] with
      | none => none
      | some (reg1, ienv1, v) =>
        match v with
        | .int m => addLoop fuel reg1 ienv1 rest (wrap64 (total + m)) totalf
        | .float q => addLoop fuel reg1 ienv1 rest total (totalf + q)
        | .err er => some (reg1, .err er)
        | other => some (reg1, .err (.typeError other ["int64", "float64"]))

/-- Models `kernelSub`: exactly two arguments, both evaluated from the original
environment; the result is a float when the float accumulator of the
corresponding operand branch is non-zero, mirroring the source's
`f != 0` / `i != 0` tests. -/
def kernelSub : Nat → Registry → Env → List Value → Option (Registry × Env × Value)
  | 0, _, _, _ => none
  | fuel + 1, reg, env, args =>
    match args with
    | [a1, a2] =>
      match eval fuel reg env a1 [] with
      | none => none
      | some (reg1, _, first) =>
        match eval fuel reg1 env a2 [] with
        | none => none
        | some (reg2, _, second) =>
          match first with
          | .int i =>
            match second with
            | .int b => some (reg2, env, .int (wrap64 (i - b)))
            | .float b =>
              if i ≠ 0 then some (reg2, env, .float ((i : Rat) - b))
              else some (reg2, env, .float (0 - b))
            | other => some (reg2, env, .err (.typeError other ["int64", "float64"]))
          | .float f =>
            match second with
            | .int b =>
              if f ≠ 0 then some (reg2, env, .float (f - (b : Rat)))
              else some (reg2, env, .int (wrap64 (0 - b)))
            | .float b => some (reg2, env, .float (f - b))
            | other => some (reg2, env, .err (.typeError other ["int64", "float64"]))
          | other => some (reg2, env, .err (.typeError other ["int64", "float64"]))
    | _ => some (reg, env, .err (.argumentNum args.length 2))

/-- Models `to_upper` from the standard `String` module: one argument, which
must evaluate to a string; uppercased result.  (Go uses Unicode case
mapping; Lean's `String.toUpper` is ASCII-only, which agrees on every
input used here.) -/
def kernelToUpper : Nat → Registry → Env → List Value → Option (Registry × Env × Value)
  | 0, _, _, _ => none
  | fuel + 1, reg, env, args =>
    match args with
    | [a] =>
      match eval fuel reg env a [] with
      | none => none
      | some (reg1, _, h) =>
        match h with
        | .str s => some (reg1, env, .str s.toUpper)
        | _ => some (reg1, env, .err (.typeError h ["string"]))
    | _ => some (reg, env, .err (.argumentNum args.length 1))

end

/-- The base scope of built-ins (`kernel` in the source): a `localList`
built by pushing `list`, `defmodule`, `def`, `func`, `add`, `sub` in that
order, so the most recently pushed binding is at the head. -/
def kernel : List (String × Value) :=
  [("sub", .efunc .sub), ("add", .efunc .add), ("func", .efunc .funcForm),
   ("def", .efunc .defForm), ("defmodule", .efunc .defmodule),
   ("list", .efunc .listForm)]

/-- The standard-library modules pre-stored at construction (`std`): one
module `String` with `to_upper`. -/
def stdModules : Registry := [("String", [("to_upper", .efunc .toUpper)])]

/-- Models `New` from `env.go`: the base environment, seeded with the kernel
bindings as its locals and no current module.  Its shared registry is
`stdModules`. -/
def New : Env := .mk none kernel

/-- The `List` struct of `list.go`, modelled exactly: a nil pointer, or a
node with a head, a tail and a cached length.  The head field is Go's
`any`; besides ordinary runtime values, `Tail`'s fallback branch stores a
`*List` there, hence the sum. -/
inductive GoList where
  | nil
  | node (head : Sum Value GoList) (tail : GoList) (len : Int)

/-- Models `List.Len`: nil reads as length 0; a node returns its cached length in
O(1). -/
def GoList.Len : GoList → Int
  | .nil => 0
  | .node _ _ n => n

/-- Models `List.Head`: nil (both the nil pointer and Go's `nil` value stored in
a zero-value node) reads as the `nil` value. -/
def GoList.Head : GoList → Sum Value GoList
  | .nil => .inl .nil
  | .node h _ _ => h

/-- Models `List.Push`: prepend, caching `list.Len() + 1`; the old list is
shared, unmodified, as the tail. -/
def GoList.Push (l : GoList) (v : Sum Value GoList) : GoList :=
  .node v l (l.Len + 1)

/-- Models `List.Tail`: nil for a nil pointer or nil tail; the tail node itself
when its cached length is consistent; otherwise the fallback node that
stores the tail (a `*List`) in the head field with a decremented
length. -/
def GoList.Tail : GoList → GoList
  | .nil => .nil
  | .node _ .nil _ => .nil
  | .node _ (.node th tt tn) n =>
    if tn = n - 1 then .node th tt tn
    else .node (.inr (.node th tt tn)) tt (n - 1)

theorem GoList.Tail_len_lt (l : GoList) (h : 0 < l.Len) : l.Tail.Len.toNat < l.Len.toNat := by
  rcases l with _ | ⟨h0, _ | ⟨th, tt, tn⟩, n⟩
  · simp [GoList.Len] at h
  · simp only [GoList.Tail, GoList.Len] at h ⊢
    omega
  · simp only [GoList.Tail, GoList.Len] at h ⊢
    by_cases hc : tn = n - 1
    · simp only [if_pos hc, GoList.Len]
      omega
    · simp only [if_neg hc, GoList.Len]
      omega

/-- Models `List.All`: yield heads while the (cached) length is positive,
stepping with `Tail`.  Terminates because `Tail` strictly decreases the
cached length. -/
def GoList.all (l : GoList) : List (Sum Value GoList) :=
  if h : 0 < l.Len then l.Head :: l.Tail.all else []
termination_by l.Len.toNat
decreasing_by exact GoList.Tail_len_lt l h

end Extract

namespace Scanner

/-- The token value kinds of the scanner package (`Lparen`, `Rparen`,
`Dot`, `Pin`, `Int`, `Float`, `String`, `Ident`, `Atom`), plus `unset`
for the zero value of Go's `Token.Val` field. -/
inductive TokVal where
  | unset
  | lparen
  | rparen
  | dot
  | pin
  | int (n : Int)
  | float (q : Rat)
  | str (s : String)
  | ident (s : String)
  | atom (s : String)
  deriving DecidableEq, Repr

/-- A scanner token: the position of its recorded first character and its
value. -/
structure Token where
  line : Nat
  col : Nat
  val : TokVal
  deriving DecidableEq, Repr

/-- The conditions that stop the scanner: clean end of input (`io.EOF`),
an `UnexpectedRuneError`, a `TokenError` (literal-specific cause
summarised as a string), or a Go runtime panic (stale type assertion in
`atom`, reachable only on paths where the token is dropped anyway). -/
inductive ScanErr where
  | eof
  | unexpectedRune (line col : Nat) (c : Char)
  | tokenErr (line col : Nat) (cause : String)
  | panicked
  deriving DecidableEq, Repr

/-- The scanner state (`Scanner` struct): the full input with a cursor
models the buffered reader (`unread` steps the cursor back one rune),
`line`/`col` are the position counters, `c` the last rune read, `buf`
the token text builder, `tokLine`/`tokCol`/`tokVal` the current token,
and `err` the stored error. -/
structure SState where
  input : List Char
  i : Nat
  line : Nat
  col : Nat
  c : Char
  buf : List Char
  tokLine : Nat
  tokCol : Nat
  tokVal : TokVal
  err : Option ScanErr

/-- Go's `unicode.IsSpace`. -/
def isSpace (c : Char) : Bool :=
  let n := c.toNat
  decide ((9 ≤ n ∧ n ≤ 13) ∨ n = 32 ∨ n = 133 ∨ n = 160 ∨ n = 0x1680 ∨
    (0x2000 ≤ n ∧ n ≤ 0x200A) ∨ n = 0x2028 ∨ n = 0x2029 ∨ n = 0x202F ∨
    n = 0x205F ∨ n = 0x3000)

/-- Models `Scanner.read`: pull the next rune, updating `c` and the position
counters (`col` resets to 1 and `line` advances on a newline); at end of
input, store `io.EOF` and report failure. -/
def read (st : SState) : SState × Bool :=
  match st.input[st.i]? with
  | none => ({ st with err := some .eof }, false)
  | some ch =>
    if ch = '\n' then
      ({ st with c := ch, i := st.i + 1, col := 1, line := st.line + 1 }, true)
    else
      ({ st with c := ch, i := st.i + 1, col := st.col + 1 }, true)

/-- Models `Scanner.unread`: step the reader back one rune.  The position
counters are deliberately not rolled back, exactly as in the source. -/
def unread (st : SState) : SState := { st with i := st.i - 1 }

/-- Models `Scanner.raiseToken`: a `TokenError` carrying the current token's
recorded position. -/
def raiseToken (st : SState) (cause : String) : SState :=
  { st with err := some (.tokenErr st.tokLine st.tokCol cause) }

/-- Models `Scanner.raiseUnexpectedRune`: an `UnexpectedRuneError` at the current
position (column minus one, since `read` already advanced it). -/
def raiseUnexpectedRune (st : SState) : SState :=
  { st with err := some (.unexpectedRune st.line (st.col - 1) st.c) }

/-- Models `Scanner.raiseUnexpectedEOF`: upgrade a stored `io.EOF` into a
`TokenError` about an unterminated literal. -/
def raiseUnexpectedEOF (st : SState) (lit : String) : SState :=
  if st.err = some .eof then raiseToken st ("unexpected EOF in " ++ lit ++ " literal")
  else st

/-- Models `Scanner.escape`: validate an escape character after a backslash,
rewriting `c` for `\n`/`\t`; anything other than the quote, backslash,
`n` or `t` raises a `TokenError`. -/
def escape (st : SState) (q : Char) : SState :=
  if st.c = q ∨ st.c = '\\' then st
  else if st.c = 'n' then { st with c := '\n' }
  else if st.c = 't' then { st with c := '\t' }
  else raiseToken st ("invalid escape sequence " ++ String.singleton st.c)

/-- Models `strconv.ParseInt` on the scanner's integer buffer: the buffer is all
digits, so the only failure is 64-bit overflow. -/
def parseIntBuf (cs : List Char) : Option Int :=
  let n : Nat := cs.foldl (fun a c => a * 10 + (c.toNat - 48)) 0
  if n ≤ 2 ^ 63 - 1 then some (n : Int) else none

/-- Models `strconv.ParseFloat` on the scanner's float buffer (digits, one dot,
optional digits), exact as a rational; fails only on an empty integer
part, which the scanner never produces. -/
def parseFloatBuf (cs : List Char) : Option Rat :=
  let ip := cs.takeWhile (fun c => c ≠ '.')
  let fp := (cs.dropWhile (fun c => c ≠ '.')).drop 1
  if ip = [] then none
  else
    some ((ip.foldl (fun a c => a * 10 + (c.toNat - 48)) 0 : Nat) +
      (fp.foldl (fun a c => a * 10 + (c.toNat - 48)) 0 : Nat) / ((10 : Rat) ^ fp.length))

/-- Alphanumeric test used by `Scanner.ident`. -/
def isAlnum (c : Char) : Bool :=
  decide (('a' ≤ c ∧ c ≤ 'z') ∨ ('A' ≤ c ∧ c ≤ 'Z') ∨ ('0' ≤ c ∧ c ≤ '9'))

/-- Finish an identifier token from the buffer. -/
def finishIdent (st : SState) : SState :=
  { st with tokVal := .ident (String.mk st.buf) }

/-- Models `Scanner.ident`: consume `_`, letters and digits; a `?` or `!` is
consumed and ends the identifier; any other rune is unread.  At end of
input the function returns without emitting (the token is dropped, as in
the source). -/
def sIdent : Nat → SState → SState
  | 0, st => st
  | fuel + 1, st =>
    let (st1, ok) := read st
    if !ok then st1
    else if st1.c = '_' then sIdent fuel { st1 with buf := st1.buf ++ ['_'] }
    else if st1.c = '?' ∨ st1.c = '!' then finishIdent { st1 with buf := st1.buf ++ [st1.c] }
    else if isAlnum st1.c then sIdent fuel { st1 with buf := st1.buf ++ [st1.c] }
    else finishIdent (unread st1)

/-- Models `Scanner.atom`: scan an identifier and re-tag its value as an atom.
If `ident` returned early (end of input), the Go code type-asserts the
stale `tok.Val`; a stale non-`Ident` value is a runtime panic. -/
def sAtom (fuel : Nat) (st : SState) : SState :=
  let st1 := sIdent fuel st
  match st1.tokVal with
  | .ident s => { st1 with tokVal := .atom s }
  | _ => { st1 with err := some .panicked }

/-- Finish an integer token: parse the buffer, raising a `TokenError` on
overflow. -/
def finishInt (st : SState) : SState :=
  match parseIntBuf st.buf with
  | none => raiseToken st "parse integer literal"
  | some n => { st with tokVal := .int n }

/-- Finish a float token: parse the buffer. -/
def finishFloat (st : SState) : SState :=
  match parseFloatBuf st.buf with
  | none => raiseToken st "parse float literal"
  | some q => { st with tokVal := .float q }

/-- Models `Scanner.float`: consume further digits; at end of input return
without emitting; otherwise unread the delimiter and parse. -/
def sFloat : Nat → SState → SState
  | 0, st => st
  | fuel + 1, st =>
    let (st1, ok) := read st
    if !ok then st1
    else if decide ('0' ≤ st1.c ∧ st1.c ≤ '9') then
      sFloat fuel { st1 with buf := st1.buf ++ [st1.c] }
    else finishFloat (unread st1)

/-- Models `Scanner.int`: consume digits; a dot promotes to `float`; end of
input breaks out and parses (the stored `io.EOF` still drops the token
at the `Scan` level); otherwise unread the delimiter and parse. -/
def sInt : Nat → SState → SState
  | 0, st => st
  | fuel + 1, st =>
    let (st1, ok) := read st
    if !ok then finishInt st1
    else if st1.c = '.' then sFloat fuel { st1 with buf := st1.buf ++ ['.'] }
    else if decide ('0' ≤ st1.c ∧ st1.c ≤ '9') then
      sInt fuel { st1 with buf := st1.buf ++ [st1.c] }
    else finishInt (unread st1)

/-- Models `Scanner.string`: consume runes until the closing quote, handling
backslash escapes; end of input raises the unterminated-literal
`TokenError`. -/
def sString : Nat → SState → SState
  | 0, st => st
  | fuel + 1, st =>
    let (st1, ok) := read st
    if !ok then raiseUnexpectedEOF st1 "string"
    else if st1.c = '\\' then
      let (st2, ok2) := read st1
      if !ok2 then raiseUnexpectedEOF st2 "string"
      else
        let st3 := escape st2 '"'
        if st3.err.isSome then st3
        else sString fuel { st3 with buf := st3.buf ++ [st3.c] }
    else if st1.c = '"' then { st1 with tokVal := .str (String.mk st1.buf) }
    else sString fuel { st1 with buf := st1.buf ++ [st1.c] }

/-- Models `Scanner.rune`: a single rune (or escape) between single quotes,
yielding its code point as an `Int` token; empty and multi-rune literals
are `TokenError`s. -/
def sRune (st : SState) : SState :=
  let (st1, ok) := read st
  if !ok then raiseUnexpectedEOF st1 "rune"
  else
    let step : SState × Option Char :=
      if st1.c = '\\' then
        let (st2, ok2) := read st1
        if !ok2 then (raiseUnexpectedEOF st2 "rune", none)
        else
          let st3 := escape st2 '\''
          if st3.err.isSome then (st3, none) else (st3, some st3.c)
      else if st1.c = '\'' then (raiseToken st1 "empty rune literal", none)
      else (st1, some st1.c)
    match step with
    | (st4, none) => st4
    | (st4, some val) =>
      let (st5, ok5) := read st4
      if !ok5 then raiseUnexpectedEOF st5 "rune"
      else if st5.c ≠ '\'' then raiseToken st5 "rune literal contains more than one rune"
      else { st5 with tokVal := .int (val.toNat : Int) }

/-- Models `Scanner.atomcolon`: after `:`, a quoted string becomes a string
atom, anything else is unread and scanned as an identifier-shaped
atom. -/
def sAtomcolon (fuel : Nat) (st : SState) : SState :=
  let (st1, ok) := read st
  if !ok then raiseUnexpectedEOF st1 "atom"
  else if st1.c = '"' then
    let st2 := sString fuel st1
    match st2.err, st2.tokVal with
    | none, .str s => { st2 with tokVal := .atom s }
    | none, _ => { st2 with err := some .panicked }
    | _, _ => st2
  else sAtom fuel (unread st1)

/-- The dispatch on the first non-space rune of `Scanner.start`: the
single-character tokens, the literal openers, then the
identifier/number/atom starts; anything else (including `#`, which has
no comment handling in the scanner) raises `UnexpectedRuneError`. -/
def dispatch (fuel : Nat) (st : SState) : SState :=
  if st.c = '(' then { st with tokVal := .lparen }
  else if st.c = ')' then { st with tokVal := .rparen }
  else if st.c = '.' then { st with tokVal := .dot }
  else if st.c = '\\' then { st with tokVal := .pin }
  else if st.c = '"' then sString fuel st
  else if st.c = ':' then sAtomcolon fuel st
  else if st.c = '\'' then sRune st
  else if st.c = '_' then sIdent fuel { st with buf := ['_'] }
  else if decide ('0' ≤ st.c ∧ st.c ≤ '9') then sInt fuel { st with buf := [st.c] }
  else if decide ('a' ≤ st.c ∧ st.c ≤ 'z') then sIdent fuel { st with buf := [st.c] }
  else if decide ('A' ≤ st.c ∧ st.c ≤ 'Z') then sAtom fuel { st with buf := [st.c] }
  else raiseUnexpectedRune st

/-- The whitespace-skipping loop at the top of `Scanner.start`. -/
def skipWS : Nat → SState → SState
  | 0, st => st
  | fuel + 1, st =>
    let (st1, ok) := read st
    if !ok then st1
    else if isSpace st1.c then skipWS fuel st1
    else dispatch fuel st1

/-- Models `Scanner.start`: record the current counters as the token position,
reset the buffer (Go defers the reset; observationally identical), skip
whitespace and dispatch. -/
def start (fuel : Nat) (st : SState) : SState :=
  skipWS fuel { st with tokLine := st.line, tokCol := st.col, buf := [] }

/-- The scanner's initial state over an input string (`New`): counters
start at line 1, column 1. -/
def initState (s : String) : SState :=
  { input := s.toList, i := 0, line := 1, col := 1, c := ' ', buf := [],
    tokLine := 0, tokCol := 0, tokVal := .unset, err := none }

/-- The `Scanner.All` iteration: call `Scan` (= `start`) repeatedly,
yielding the current token while no error is stored; return the
collected tokens and the stopping error (`Err` maps `io.EOF` to nil for
callers; the raw error is reported here). -/
def scanLoop : Nat → SState → List Token × Option ScanErr
  | 0, st => ([], st.err)
  | fuel + 1, st =>
    let st1 := start (st.input.length + 1) st
    match st1.err with
    | some e => ([], some e)
    | none =>
      let (toks, e) := scanLoop fuel st1
      (⟨st1.tokLine, st1.tokCol, st1.tokVal⟩ :: toks, e)

/-- Scan a whole input string to a token list and a stopping error. -/
def scanToks (s : String) : List Token × Option ScanErr :=
  scanLoop (s.length + 1) (initState s)

end Scanner

namespace Parser

open Extract

/-- The parser's error values: `UnexpectedTokenError` (position and the
offending token value), `io.ErrUnexpectedEOF`, the ad-hoc
`errors.New` errors raised through `p.raise`, and the fuel marker that
models non-termination (never produced with sufficient fuel). -/
inductive PErr where
  | unexpectedToken (line col : Nat) (got : Scanner.TokVal)
  | unexpectedEOF
  | msg (s : String)
  | outOfFuel
  deriving DecidableEq, Repr

mutual

/-- Models `parser.expr`: scan one token and build the literal value for it
(`literal.Int` = `int64`, …, `extract.MakeAtom`/`MakeIdent`, or a nested
list); any other token kind re-scans for the error payload and raises
`UnexpectedTokenError`.  Afterwards, if the next token is a `Dot`, hand
the expression to `parser.ref`.  The parser's one-token pushback buffer
is modelled by operating directly on the token list. -/
def pExpr : Nat → List Scanner.Token → Except PErr (Value × List Scanner.Token)
  | 0, _ => throw .outOfFuel
  | fuel + 1, toks =>
    match toks with
    | [] => throw .unexpectedEOF
    | t :: rest =>
      match t.val with
      | .int m => pDot fuel (.int m) rest
      | .float q => pDot fuel (.float q) rest
      | .str s => pDot fuel (.str s) rest
      | .atom s => pDot fuel (.atom s) rest
      | .ident s => pDot fuel (.ident s) rest
      | .lparen =>
        match pList fuel (t :: rest) with
        | .error e => throw e
        | .ok (v, rest1) => pDot fuel v rest1
      | _ =>
        match rest with
        | [] => throw .unexpectedEOF
        | t1 :: _ => throw (.unexpectedToken t1.line t1.col t1.val)

/-- The trailing `Dot` check at the end of `parser.expr` (`p.peek()`):
chain into `parser.ref` when a `Dot` follows. -/
def pDot : Nat → Value → List Scanner.Token → Except PErr (Value × List Scanner.Token)
  | 0, _, _ => throw .outOfFuel
  | fuel + 1, v, toks =>
    match toks with
    | t :: _ =>
      if t.val = .dot then pRef fuel v toks
      else .ok (v, toks)
    | [] => .ok (v, toks)

/-- Models `parser.ref`: consume the `Dot`, parse the following expression, and
require it to be an Ident, building `Ref{In: left, Name: ident}`;
anything else raises `last element of a ref must be an identifier`. -/
def pRef : Nat → Value → List Scanner.Token → Except PErr (Value × List Scanner.Token)
  | 0, _, _ => throw .outOfFuel
  | fuel + 1, inn, toks =>
    match toks with
    | [] => throw .unexpectedEOF
    | t :: rest =>
      if t.val = .dot then
        match pExpr fuel rest with
        | .error e => throw e
        | .ok (name, rest1) =>
          match name with
          | .ident s => .ok (.ref inn s, rest1)
          | _ => throw (.msg "last element of a ref must be an identifier")
      else throw (.unexpectedToken t.line t.col t.val)

/-- Models `parser.list`: expect `Lparen`, parse the inner expressions, expect
`Rparen`; the result is `literal.List`, i.e. an `extract.Call`. -/
def pList : Nat → List Scanner.Token → Except PErr (Value × List Scanner.Token)
  | 0, _ => throw .outOfFuel
  | fuel + 1, toks =>
    match toks with
    | [] => throw .unexpectedEOF
    | t :: rest =>
      if t.val = .lparen then
        match pListInner fuel rest with
        | .error e => throw e
        | .ok (vs, rest1) =>
          match rest1 with
          | [] => throw .unexpectedEOF
          | t1 :: rest2 =>
            if t1.val = .rparen then .ok (.call vs, rest2)
            else throw (.unexpectedToken t1.line t1.col t1.val)
      else throw (.unexpectedToken t.line t.col t.val)

/-- Models `parser.listInner`: parse expressions until the lookahead is a
`Rparen` or end of input. -/
def pListInner : Nat → List Scanner.Token → Except PErr (List Value × List Scanner.Token)
  | 0, _ => throw .outOfFuel
  | fuel + 1, toks =>
    match toks with
    | [] => .ok ([], [])
    | t :: _ =>
      if t.val = .rparen then .ok ([], toks)
      else
        match pExpr fuel toks with
        | .error e => throw e
        | .ok (v, rest) =>
          match pListInner fuel rest with
          | .error e => throw e
          | .ok (vs, rest1) => .ok (v :: vs, rest1)

end

/-- Models `parser.Parse`: the top level is `listInner`; its results form the
script's expression list (a data `*List`). -/
def Parse (fuel : Nat) (toks : List Scanner.Token) : Except PErr Value :=
  match pListInner fuel toks with
  | .error e => throw e
  | .ok (vs, _) => .ok (.list vs)

end Parser

namespace Extract

/-- Numeric test on values (`int64` or `float64`), as `kernelAdd`
accepts. -/
def isNum : Value → Bool
  | .int _ => true
  | .float _ => true
  | _ => false

/-- Float test on values. -/
def isFloatV : Value → Bool
  | .float _ => true
  | _ => false

/-- The running `int64` total of `kernelAdd` over a list of evaluated
values, wrapping at 64 bits on every addition. -/
def intTotal (t : Int) (vals : List Value) : Int :=
  vals.foldl (fun a v => match v with | .int m => wrap64 (a + m) | _ => a) t

/-- The running `float64` total of `kernelAdd` over a list of evaluated
values. -/
def floatTotal (f : Rat) (vals : List Value) : Rat :=
  vals.foldl (fun a v => match v with | .float q => a + q | _ => a) f

/-- The value `kernelAdd` produces from its two finished totals:
`float64(total) + totalf` when `totalf != 0`, else the integer total. -/
def addResult (t : Int) (f : Rat) (vals : List Value) : Value :=
  let T := intTotal t vals
  let F := floatTotal f vals
  if F ≠ 0 then .float ((T : Rat) + F) else .int T

/-- C9 (confirmed).  A compiled list-structure matcher applied to a value
that is not a list, or to a list whose length differs from the number of
child matchers, answers `(env, false)`; `Pattern.Match` is a total
function into `Env × Bool` by construction — no error value exists in
its result type. -/
theorem c9_listMatcher_total (ms : List Matcher) (env : Env) :
    (∀ v : Value, (∀ l, v ≠ .list l) → matchM (.listM ms) env v = (env, false)) ∧
    (∀ l : List Value, l.length ≠ ms.length →
      matchM (.listM ms) env (.list l) = (env, false)) := by
  constructor
  · intro v hnl
    cases v <;> simp [matchM]
    exact absurd rfl (hnl _)
  · intro l hlen
    simp [matchM, hlen]

/-- Witness for C9 at concrete inputs: a one-child list matcher rejects
the integer 3 and the empty list. -/
theorem c9_listMatcher_total_witness :
    matchM (.listM [.assign "x"]) (Env.mk none []) (.int 3) = (Env.mk none [], false) ∧
    matchM (.listM [.assign "x"]) (Env.mk none []) (.list []) = (Env.mk none [], false) :=
  ⟨(c9_listMatcher_total [.assign "x"] (Env.mk none [])).1 (.int 3) (fun _ => by simp),
   (c9_listMatcher_total [.assign "x"] (Env.mk none [])).2 [] (by decide)⟩

/-- The zero-value `List` struct of `list.go`: all fields zero (nil head,
nil tail, length 0). -/
def zeroGoList : GoList := .node (.inl .nil) .nil 0

/-- C10 (confirmed).  A nil `*List` and a zero-value `List` are valid
empty lists: `Len` is 0, `Head` is nil, `Tail` is nil, `All` yields
nothing, and `Push` yields a one-element list carrying the pushed value.
All five operations are total Lean functions on every `GoList`, so no
operation can fault on these inputs. -/
theorem c10_nil_list_valid :
    GoList.Len .nil = 0 ∧ GoList.Len zeroGoList = 0 ∧
    GoList.Head .nil = .inl Value.nil ∧ GoList.Head zeroGoList = .inl Value.nil ∧
    GoList.Tail .nil = .nil ∧ GoList.Tail zeroGoList = .nil ∧
    GoList.all .nil = [] ∧ GoList.all zeroGoList = [] ∧
    ∀ v : Sum Value GoList,
      (GoList.Push .nil v).Len = 1 ∧ (GoList.Push zeroGoList v).Len = 1 ∧
      (GoList.Push .nil v).all = [v] ∧ (GoList.Push zeroGoList v).all = [v] := by
  refine ⟨rfl, rfl, rfl, rfl, rfl, rfl, ?_, ?_, ?_⟩
  · rw [GoList.all]
    simp [GoList.Len]
  · rw [GoList.all]
    simp [zeroGoList, GoList.Len]
  · intro v
    refine ⟨rfl, rfl, ?_, ?_⟩
    · rw [GoList.all]
      simp [GoList.Push, GoList.Len, GoList.Head, GoList.Tail]
      rw [GoList.all]
      simp [GoList.Len]
    · rw [GoList.all]
      simp [GoList.Push, GoList.Len, GoList.Head, GoList.Tail, zeroGoList]
      rw [GoList.all]
      simp [GoList.Len]

/-- C4 (corrected), amended part.  For every identifier other than the
reserved module sentinel `$module`, a `Let` binding is immediately
visible to `Lookup`, and every other identifier's lookup is unchanged in
the new environment.  (The original environment is untouched by
construction: `Let` builds a new value.)  For `k = "$module"` the claim
fails — see the counterexample. -/
theorem c4_let_lookup (reg : Registry) (env : Env) (k : String) (v : Value)
    (hk : k ≠ "$module") :
    Env.Lookup reg (env.Let k v) k = some (some v) ∧
    ∀ k', k' ≠ k → Env.Lookup reg (env.Let k v) k' = Env.Lookup reg env k' := by
  constructor
  · simp [Env.Lookup, Env.Let, lookupLoop, hk, Env.currentModule, Env.locals]
  · intro k' hk'
    have hkk : k ≠ k' := fun h => hk' h.symm
    simp [Env.Lookup, Env.Let, lookupLoop, hk, hkk, Env.currentModule, Env.locals]

/-- Witness for C4 at a concrete input. -/
theorem c4_let_lookup_witness :
    Env.Lookup [] ((Env.mk none []).Let "x" (.int 1)) "x" = some (some (.int 1)) ∧
    Env.Lookup [] ((Env.mk none []).Let "x" (.int 1)) "y" =
      Env.Lookup [] (Env.mk none []) "y" :=
  ⟨(c4_let_lookup [] (Env.mk none []) "x" (.int 1) (by decide)).1,
   (c4_let_lookup [] (Env.mk none []) "x" (.int 1) (by decide)).2 "y" (by decide)⟩

/-- Counterexample for C4 as stated: in an environment with a current
module installed (exactly the state `defmodule M` builds over the base
environment), binding the sentinel identifier `$module` is shadowed by
the module-declaration interpolation of `Env.All`, so the freshly bound
value is not returned — `Lookup` reports not-found instead of
`(v, true)`. -/
theorem c4_counterexample :
    Env.Lookup (("M", []) :: stdModules)
      ((Env.mk (some "M") kernel).Let "$module" (.int 1)) "$module" ≠
      some (some (.int 1)) :=
  fun h => Option.noConfusion (Option.some.inj h)

/-- Counterexample for C7 as stated: the base environment returned by
`New` has no binding whatsoever named `let` — `Lookup` reports
not-found. -/
theorem c7_counterexample : Env.Lookup stdModules New "let" = some none := rfl

/-- C7 (corrected), amended part.  The base environment pre-binds exactly
the kernel forms `sub`, `add`, `func`, `def`, `defmodule` and `list`
(outermost pushes first in lookup order), all outside any module, and
binds nothing named `let`. -/
theorem c7_kernel_bindings :
    Env.Lookup stdModules New "defmodule" = some (some (.efunc .defmodule)) ∧
    Env.Lookup stdModules New "def" = some (some (.efunc .defForm)) ∧
    Env.Lookup stdModules New "func" = some (some (.efunc .funcForm)) ∧
    Env.Lookup stdModules New "list" = some (some (.efunc .listForm)) ∧
    Env.Lookup stdModules New "add" = some (some (.efunc .add)) ∧
    Env.Lookup stdModules New "sub" = some (some (.efunc .sub)) ∧
    Env.Lookup stdModules New "let" = some none :=
  ⟨rfl, rfl, rfl, rfl, rfl, rfl, rfl⟩

/-- C3 (confirmed).  `Run` over a sequence: when the first expression
evaluates to an error value, `Run` returns that error at once and the
remaining expressions — universally quantified and absent from the
result — are never evaluated; when it evaluates to a non-error, `Run`
continues on the rest of the sequence threading the updated environment
(and registry) forward; and on an exhausted sequence `Run` returns the
last computed value.  Together the three conjuncts characterise `Run`'s
in-order, env-threading, first-error-short-circuit behaviour. -/
theorem c3_run_short_circuits (fuel : Nat) (reg reg1 : Registry) (env env1 : Env)
    (e : Value) (v : Value)
    (h : eval fuel reg env e [] = some (reg1, env1, v)) :
    (∀ er, v = .err er →
      ∀ es : List Value, run (fuel + 1) reg env .nil (e :: es) = some (reg1, env1, .err er)) ∧
    ((∀ er, v ≠ .err er) →
      ∀ es : List Value, run (fuel + 1) reg env .nil (e :: es) = run fuel reg1 env1 v es) ∧
    run (fuel + 1) reg1 env1 v [] = some (reg1, env1, v) := by
  refine ⟨?_, ?_, rfl⟩
  · intro er hv es
    subst hv
    simp [run, h]
  · intro hv es
    simp only [run, h]

/-- Witness for C3 at a concrete input: `nope` is unbound, so its
evaluation yields a `NameError` and `Run` stops there, skipping the
trailing `5`. -/
theorem c3_run_short_circuits_witness :
    run 6 stdModules New .nil [.ident "nope", .int 5] =
      some (stdModules, New, .err (.nameError "nope")) :=
  (c3_run_short_circuits 5 stdModules stdModules New New (.ident "nope")
    (.err (.nameError "nope")) rfl).1 (.nameError "nope") rfl [.int 5]

/-- C2 (confirmed).  A user function with variants `V1, V2` in definition
order: when the evaluated arguments match `V1`'s pattern — matched
against the function's captured environment extended with the binding of
the function's own name (`Func.selfEnv`, as built by `NewFunc`) — the
call runs `V1`'s body in the environment the match produced and returns
its result with the caller's environment, regardless of what `V2` is or
whether it would match. -/
theorem c2_first_variant_wins (n : Nat) (reg reg1 : Registry) (env envd fenv : Env)
    (name : String) (envB : Env) (p1 : Matcher) (b1 : List Value) (v2 : Variant)
    (args eargs : List Value)
    (hargs : evalVals (n + 1) reg env args = some (reg1, envd, eargs))
    (hmatch : matchM p1 (Func.selfEnv (.mk name envB [.mk p1 b1, v2])) (.list eargs) =
      (fenv, true)) :
    funcEval (n + 2) reg env (.mk name envB [.mk p1 b1, v2]) args =
      Option.map (fun x => (x.1, env, x.2.2)) (run n reg1 fenv .nil b1) := by
  simp only [funcEval, hargs, Func.variants, tryVariants, Variant.pat, hmatch,
    Variant.body]
  cases run n reg1 fenv .nil b1 with
  | none => rfl
  | some x => rfl

/-- Witness for C2 at a concrete input: both variants of `g` match the
single argument `7`, and the call returns the first variant's body
result (the bound `x`, i.e. 7), not the second variant's 99. -/
theorem c2_first_variant_wins_witness :
    funcEval 10 stdModules New
      (.mk "g" New [.mk (.listM [.assign "x"]) [.ident "x"],
        .mk (.listM [.assign "y"]) [.int 99]]) [.int 7] =
      Option.map (fun x => (x.1, New, x.2.2))
        (run 8 stdModules
          ((Func.selfEnv (.mk "g" New [.mk (.listM [.assign "x"]) [.ident "x"],
            .mk (.listM [.assign "y"]) [.int 99]])).Let "x" (.int 7)) .nil
          [.ident "x"]) :=
  c2_first_variant_wins 8 stdModules stdModules New New _ "g" New
    (.listM [.assign "x"]) [.ident "x"] (.mk (.listM [.assign "y"]) [.int 99])
    [.int 7] [.int 7] rfl rfl

/-- The accumulation loop of `kernelAdd` agrees with the two pure totals
whenever the arguments evaluate successfully to all-numeric values. -/
theorem addLoop_spec (es : List Value) : ∀ (fuel : Nat) (reg reg1 : Registry)
    (ienv env1 : Env) (vals : List Value) (t : Int) (f : Rat),
    evalVals fuel reg ienv es = some (reg1, env1, vals) →
    (∀ v ∈ vals, isNum v) →
    addLoop fuel reg ienv es t f = some (reg1, addResult t f vals) := by
  induction es with
  | nil =>
    intro fuel reg reg1 ienv env1 vals t f h hnum
    cases fuel with
    | zero => simp [evalVals] at h
    | succ m =>
      simp [evalVals] at h
      obtain ⟨h1, _, h3⟩ := h
      subst h1
      subst h3
      simp [addLoop, addResult, intTotal, floatTotal]
  | cons e rest ih =>
    intro fuel reg reg1 ienv env1 vals t f h hnum
    cases fuel with
    | zero => simp [evalVals] at h
    | succ m =>
      simp only [evalVals] at h
      cases he : eval m reg ienv e [] with
      | none => simp [he] at h
      | some x =>
        obtain ⟨rg, ie, v⟩ := x
        simp only [he] at h
        cases hr : evalVals m rg ie rest with
        | none => simp [hr] at h
        | some y =>
          obtain ⟨rg2, ie2, vs⟩ := y
          simp only [hr, Option.some.injEq, Prod.mk.injEq] at h
          obtain ⟨hrg, hie, hvals⟩ := h
          subst hrg
          subst hie
          subst hvals
          have hv : isNum v := hnum v (by simp)
          have hvs : ∀ w ∈ vs, isNum w := fun w hw => hnum w (by simp [hw])
          cases v with
          | int k =>
            simp only [addLoop, he]
            rw [ih m rg rg2 ie ie2 vs (wrap64 (t + k)) f hr hvs]
            simp [addResult, intTotal, floatTotal]
          | float q =>
            simp only [addLoop, he]
            rw [ih m rg rg2 ie ie2 vs t (f + q) hr hvs]
            simp [addResult, intTotal, floatTotal]
          | _ => simp [isNum] at hv

/-- C1 (corrected), amended part.  For a call of `add` with at least two
argument expressions whose evaluated values are all numeric, the result
is the float `float64(total) + totalf` exactly when the running float
total `totalf` is non-zero, and the wrapped 64-bit integer total
otherwise (`addResult`).  In particular, a float operand equal to 0.0
(or float operands cancelling to 0) yields an integer result, not a
float — the condition is on the accumulated float total, not on the
presence of a float operand.  The caller's environment is returned
unchanged; the registry reflects the argument evaluations. -/
theorem c1_add_numeric (fuel : Nat) (reg reg1 : Registry) (env env1 : Env)
    (args vals : List Value)
    (hlen : 2 ≤ args.length)
    (hargs : evalVals fuel reg env args = some (reg1, env1, vals))
    (hnum : ∀ v ∈ vals, isNum v) :
    kernelAdd (fuel + 1) reg env args = some (reg1, env, addResult 0 0 vals) := by
  have hnotlt : ¬ args.length < 2 := by omega
  simp only [kernelAdd, if_neg hnotlt,
    addLoop_spec args fuel reg reg1 env env1 vals 0 0 hargs hnum]

/-- Witness for C1's amended statement at a concrete input:
`(add 2 3)` evaluates to the integer 5. -/
theorem c1_add_numeric_witness :
    kernelAdd 4 stdModules New [.int 2, .int 3] =
      some (stdModules, New, addResult 0 0 [.int 2, .int 3]) :=
  c1_add_numeric 3 stdModules stdModules New New [.int 2, .int 3]
    [.int 2, .int 3] (by decide) rfl (by decide)

/-- Counterexample for C1 as stated: `(add 1 0.0)` has a float operand,
yet the result is the integer 1, not a float — the `totalf != 0` test
fails when the lone float operand is exactly zero. -/
theorem c1_counterexample :
    kernelAdd 5 stdModules New [.int 1, .float 0] = some (stdModules, New, .int 1) ∧
    isFloatV (.int 1) = false := by
  refine ⟨?_, rfl⟩
  simp [kernelAdd, addLoop, eval, wrap64]

end Extract

namespace Parser

open Extract

/-- C6 (corrected), amended part.  After a parsed expression, a `Dot`
pulls the following expression, which must be an Ident, and builds
`Ref{In: left, Name: ident}` — but chained refs do not associate left:
in `A.b.c` the name position re-enters `expr`, which itself chases the
second `Dot`, so the name parses as the nested `Ref{b, c}` and
`parser.ref` raises `last element of a ref must be an identifier`
instead of producing `Ref{Ref{A, b}, c}`. -/
theorem c6_ref_parsing (n : Nat) (inn : Value) (l1 c1 l2 c2 : Nat) (s : String)
    (rest : List Scanner.Token)
    (hnd : ∀ t ts, rest = t :: ts → t.val ≠ .dot) :
    pRef (n + 3) inn (⟨l1, c1, .dot⟩ :: ⟨l2, c2, .ident s⟩ :: rest) =
      .ok (.ref inn s, rest) ∧
    ∀ (l3 c3 l4 c4 : Nat) (s2 : String),
      pRef (n + 6) inn (⟨l1, c1, .dot⟩ :: ⟨l2, c2, .ident s⟩ ::
          ⟨l3, c3, .dot⟩ :: ⟨l4, c4, .ident s2⟩ :: rest) =
        .error (.msg "last element of a ref must be an identifier") := by
  constructor
  · simp only [pRef, pExpr, pDot]
    rcases rest with _ | ⟨t, ts⟩
    · simp
    · simp [if_neg (hnd t ts rfl)]
  · intro l3 c3 l4 c4 s2
    simp only [pRef, pExpr, pDot]
    rcases rest with _ | ⟨t, ts⟩
    · simp
      rfl
    · simp [if_neg (hnd t ts rfl)]
      rfl

/-- Witness for C6's amended statement at concrete inputs: `A.b` parses
to `Ref{In: Atom A, Name: b}`, while `A.b.c` raises the ref error. -/
theorem c6_ref_parsing_witness :
    pRef 3 (.atom "A") [⟨1, 2, .dot⟩, ⟨1, 3, .ident "b"⟩] =
      .ok (.ref (.atom "A") "b", []) ∧
    pRef 6 (.atom "A") [⟨1, 2, .dot⟩, ⟨1, 3, .ident "b"⟩, ⟨1, 4, .dot⟩,
      ⟨1, 5, .ident "c"⟩] =
      .error (.msg "last element of a ref must be an identifier") :=
  ⟨(c6_ref_parsing 0 (.atom "A") 1 2 1 3 "b" [] (fun _ _ h => nomatch h)).1,
   (c6_ref_parsing 0 (.atom "A") 1 2 1 3 "b" [] (fun _ _ h => nomatch h)).2 1 4 1 5 "c"⟩

/-- Counterexample for C6 as stated: parsing the token stream of `A.b.c`
(Atom A, Dot, Ident b, Dot, Ident c) is an error, not the
left-associated `Ref{In: Ref{In: A, Name: b}, Name: c}`. -/
theorem c6_counterexample :
    Parse 20 [⟨1, 1, .atom "A"⟩, ⟨1, 2, .dot⟩, ⟨1, 3, .ident "b"⟩,
      ⟨1, 4, .dot⟩, ⟨1, 5, .ident "c"⟩] =
      .error (.msg "last element of a ref must be an identifier") := rfl

end Parser

namespace Scanner

/-- C5 (corrected), amended part.  The scanner has no comment handling:
when the rune the dispatcher lands on is `#` (no whitespace before it),
`start` raises `UnexpectedRuneError` at that position and the scanner
stops — it does not skip to the end of the line. -/
theorem c5_hash_is_error (fuel : Nat) (st : SState)
    (h : st.input[st.i]? = some '#') :
    (start (fuel + 1) st).err =
      some (.unexpectedRune st.line st.col '#') := by
  simp [start, skipWS, read, h, isSpace, dispatch, raiseUnexpectedRune]

/-- Witness for C5's amended statement at a concrete input. -/
theorem c5_hash_is_error_witness :
    (start 7 (initState "# c\n1")).err = some (.unexpectedRune 1 1 '#') :=
  c5_hash_is_error 6 (initState "# c\n1") rfl

/-- Counterexample for C5 as stated: scanning `"# c\n1"` yields no token
at all and an `UnexpectedRuneError` for the `#` — the claimed behaviour
(no token, no error, resume on the next line, so a lone `Int 1` token)
does not occur. -/
theorem c5_counterexample :
    scanToks "# c\n1" = ([], some (.unexpectedRune 1 1 '#')) := by decide

/-- Position-preservation fact for `read`: reading a rune never touches
the recorded token position. -/
@[simp]
theorem read_tok (st : SState) :
    (read st).1.tokLine = st.tokLine ∧ (read st).1.tokCol = st.tokCol := by
  unfold read
  rcases h : st.input[st.i]? with _ | ch
  · simp
  · by_cases hc : ch = '\n' <;> simp [hc]

@[simp]
theorem unread_tok (st : SState) :
    (unread st).tokLine = st.tokLine ∧ (unread st).tokCol = st.tokCol := ⟨rfl, rfl⟩

@[simp]
theorem raiseToken_tok (st : SState) (cause : String) :
    (raiseToken st cause).tokLine = st.tokLine ∧
    (raiseToken st cause).tokCol = st.tokCol := ⟨rfl, rfl⟩

@[simp]
theorem raiseUnexpectedRune_tok (st : SState) :
    (raiseUnexpectedRune st).tokLine = st.tokLine ∧
    (raiseUnexpectedRune st).tokCol = st.tokCol := ⟨rfl, rfl⟩

@[simp]
theorem raiseUnexpectedEOF_tok (st : SState) (lit : String) :
    (raiseUnexpectedEOF st lit).tokLine = st.tokLine ∧
    (raiseUnexpectedEOF st lit).tokCol = st.tokCol := by
  unfold raiseUnexpectedEOF
  split <;> exact ⟨rfl, rfl⟩

@[simp]
theorem escape_tok (st : SState) (q : Char) :
    (escape st q).tokLine = st.tokLine ∧ (escape st q).tokCol = st.tokCol := by
  unfold escape
  split_ifs <;> exact ⟨rfl, rfl⟩

@[simp]
theorem finishIdent_tok (st : SState) :
    (finishIdent st).tokLine = st.tokLine ∧ (finishIdent st).tokCol = st.tokCol :=
  ⟨rfl, rfl⟩

@[simp]
theorem finishInt_tok (st : SState) :
    (finishInt st).tokLine = st.tokLine ∧ (finishInt st).tokCol = st.tokCol := by
  unfold finishInt
  rcases parseIntBuf st.buf <;> exact ⟨rfl, rfl⟩

@[simp]
theorem finishFloat_tok (st : SState) :
    (finishFloat st).tokLine = st.tokLine ∧ (finishFloat st).tokCol = st.tokCol := by
  unfold finishFloat
  rcases parseFloatBuf st.buf <;> exact ⟨rfl, rfl⟩

@[simp]
theorem sIdent_tok (fuel : Nat) : ∀ st : SState,
    (sIdent fuel st).tokLine = st.tokLine ∧ (sIdent fuel st).tokCol = st.tokCol := by
  induction fuel with
  | zero => exact fun st => ⟨rfl, rfl⟩
  | succ m ih =>
    intro st
    simp only [sIdent]
    split_ifs <;> simp_all

@[simp]
theorem sAtom_tok (fuel : Nat) (st : SState) :
    (sAtom fuel st).tokLine = st.tokLine ∧ (sAtom fuel st).tokCol = st.tokCol := by
  have hr := sIdent_tok fuel st
  unfold sAtom
  rcases hE : sIdent fuel st with ⟨i, j, l, c, ch, b, tl, tc, tv, e⟩
  rw [hE] at hr
  cases tv <;> simp_all

@[simp]
theorem sFloat_tok (fuel : Nat) : ∀ st : SState,
    (sFloat fuel st).tokLine = st.tokLine ∧ (sFloat fuel st).tokCol = st.tokCol := by
  induction fuel with
  | zero => exact fun st => ⟨rfl, rfl⟩
  | succ m ih =>
    intro st
    simp only [sFloat]
    split_ifs <;> simp_all

@[simp]
theorem sInt_tok (fuel : Nat) : ∀ st : SState,
    (sInt fuel st).tokLine = st.tokLine ∧ (sInt fuel st).tokCol = st.tokCol := by
  induction fuel with
  | zero => exact fun st => ⟨rfl, rfl⟩
  | succ m ih =>
    intro st
    simp only [sInt]
    split_ifs <;> simp_all

@[simp]
theorem sString_tok (fuel : Nat) : ∀ st : SState,
    (sString fuel st).tokLine = st.tokLine ∧ (sString fuel st).tokCol = st.tokCol := by
  induction fuel with
  | zero => exact fun st => ⟨rfl, rfl⟩
  | succ m ih =>
    intro st
    simp only [sString]
    split_ifs <;> simp_all

@[simp]
theorem sRune_tok (st : SState) :
    (sRune st).tokLine = st.tokLine ∧ (sRune st).tokCol = st.tokCol := by
  simp only [sRune]
  split_ifs <;> simp_all
  all_goals split_ifs <;> simp_all

@[simp]
theorem sAtomcolon_tok (fuel : Nat) (st : SState) :
    (sAtomcolon fuel st).tokLine = st.tokLine ∧
    (sAtomcolon fuel st).tokCol = st.tokCol := by
  simp only [sAtomcolon]
  have hs := sString_tok fuel (read st).1
  split_ifs
  · simp_all
  · rcases hE2 : sString fuel (read st).1 with ⟨i, j, l, c, ch, b, tl, tc, tv, e⟩
    rw [hE2] at hs
    rcases e <;> cases tv <;> simp_all
  · simp_all

@[simp]
theorem dispatch_tok (fuel : Nat) (st : SState) :
    (dispatch fuel st).tokLine = st.tokLine ∧ (dispatch fuel st).tokCol = st.tokCol := by
  rw [dispatch]
  by_cases h1 : st.c = '('
  · simp [if_pos h1]
  simp only [if_neg h1]
  by_cases h2 : st.c = ')'
  · simp [if_pos h2]
  simp only [if_neg h2]
  by_cases h3 : st.c = '.'
  · simp [if_pos h3]
  simp only [if_neg h3]
  by_cases h4 : st.c = '\\'
  · simp [if_pos h4]
  simp only [if_neg h4]
  by_cases h5 : st.c = '"'
  · simp only [if_pos h5]; exact sString_tok fuel st
  simp only [if_neg h5]
  by_cases h6 : st.c = ':'
  · simp only [if_pos h6]; exact sAtomcolon_tok fuel st
  simp only [if_neg h6]
  by_cases h7 : st.c = '\''
  · simp only [if_pos h7]; exact sRune_tok st
  simp only [if_neg h7]
  by_cases h8 : st.c = '_'
  · simp only [if_pos h8]; exact sIdent_tok fuel _
  simp only [if_neg h8]
  by_cases h9 : decide ('0' ≤ st.c ∧ st.c ≤ '9') = true
  · simp only [if_pos h9]; exact sInt_tok fuel _
  simp only [if_neg h9]
  by_cases h10 : decide ('a' ≤ st.c ∧ st.c ≤ 'z') = true
  · simp only [if_pos h10]; exact sIdent_tok fuel _
  simp only [if_neg h10]
  by_cases h11 : decide ('A' ≤ st.c ∧ st.c ≤ 'Z') = true
  · simp only [if_pos h11]; exact sAtom_tok fuel _
  simp only [if_neg h11]
  exact raiseUnexpectedRune_tok st

@[simp]
theorem skipWS_tok (fuel : Nat) : ∀ st : SState,
    (skipWS fuel st).tokLine = st.tokLine ∧ (skipWS fuel st).tokCol = st.tokCol := by
  induction fuel with
  | zero => exact fun st => ⟨rfl, rfl⟩
  | succ m ih =>
    intro st
    simp only [skipWS]
    split_ifs <;>
      first
        | exact read_tok st
        | exact ⟨(ih _).1.trans (read_tok st).1, (ih _).2.trans (read_tok st).2⟩
        | exact ⟨(dispatch_tok m _).1.trans (read_tok st).1,
            (dispatch_tok m _).2.trans (read_tok st).2⟩

/-- C8 (corrected), amended part.  Every call of `Scan`/`start` records,
as the emitted token's position, the scanner's line and column counters
as they stood when `start` was entered — i.e. where whitespace skipping
for that token began (with line starting at 1, and the column counter
starting at 1 and reset by `read` on every newline).  This equals the
position of the token's first character only when no extra whitespace is
skipped; with two or more preceding whitespace characters the recorded
column lags behind the first character (see the counterexample). -/
theorem c8_token_position (fuel : Nat) (st : SState) :
    (start fuel st).tokLine = st.line ∧ (start fuel st).tokCol = st.col := by
  have h := skipWS_tok fuel { st with tokLine := st.line, tokCol := st.col, buf := [] }
  unfold start
  exact ⟨h.1, h.2⟩

/-- Counterexample for C8 as stated: scanning `"  a)"` emits the token
`Ident "a"` carrying column 1 — the column where `Scan` started, before
the two skipped spaces — although the token's first character sits at
column 3.  (The following `Rparen`, whose `)` sits at column 4, carries
column 5: the lookahead `)` consumed and unread while ending the
identifier was counted twice.) -/
theorem c8_counterexample :
    scanToks "  a)" = ([⟨1, 1, .ident "a"⟩, ⟨1, 5, .rparen⟩], some .eof) := by decide

end Scanner
